import Mathlib

/-!
Shallow embedding of the Prow Pub/Sub subscriber
(`prow/pubsub/subscriber/subscriber.go`): the event payload codec, the three
job-class resolvers (periodic / presubmit / postsubmit), and the dispatch
pipeline (`handleProwJob`, `handleMessage`).

Modelling conventions:
* Go `map[string]string` values are association lists (`LabelMap`); a Go
  `nil` map and an empty map are both the empty list.
* Go maps are reference types.  Map objects whose identity matters (the
  catalog entries' label maps, which the resolvers hand back by reference)
  live in an explicit heap (`List LabelMap`) addressed by index; a `nil`
  map reference is `Option.none`.
* The JSON codec is modelled at the level of JSON value trees: byte
  serialisation of a tree is injective, so `json.Marshal`/`json.Unmarshal`
  round trips are stated on trees.
* Fallible calls return `Except String` / `Option`; external collaborators
  (submission sink, reporter, dynamic catalog) are injected as functions.
-/

namespace PubSub

/-- Association-list model of Go's `map[string]string`. -/
abbrev LabelMap := List (String × String)

/-- Model of `prowjobs/v1.Pull` (the fields the subscriber reads). -/
structure Pull where
  number : Int
  sha : String
  deriving Repr, DecidableEq

/-- Model of `prowjobs/v1.Refs` (the fields the subscriber reads). -/
structure Refs where
  org : String
  repo : String
  baseRef : String
  baseSHA : String
  pulls : List Pull
  deriving Repr, DecidableEq

/-- `ProwJobEvent` from subscriber.go: the minimum information required to
start a ProwJob. -/
structure ProwJobEvent where
  name : String
  refs : Option Refs := none
  envs : LabelMap := []
  labels : LabelMap := []
  annotations : LabelMap := []
  deriving Repr, DecidableEq

/-- JSON value tree. -/
inductive Json where
  | null : Json
  | str : String → Json
  | num : Int → Json
  | arr : List Json → Json
  | obj : List (String × Json) → Json
  deriving Repr

/-- `json.Marshal` of a `map[string]string`: an object of string fields. -/
def encodeStringMap (m : LabelMap) : Json :=
  .obj (m.map fun kv => (kv.1, .str kv.2))

/-- Read back an object's fields as a string map. -/
def decodePairs : List (String × Json) → Option LabelMap
  | [] => some []
  | (k, Json.str v) :: rest => (decodePairs rest).map fun r => (k, v) :: r
  | _ => none

/-- `json.Unmarshal` into a `map[string]string` (`null` leaves the map nil). -/
def decodeStringMap : Json → Option LabelMap
  | Json.obj fs => decodePairs fs
  | Json.null => some []
  | _ => none

/-- `json.Marshal` of a `Pull`. -/
def encodePull (p : Pull) : Json :=
  .obj [("number", .num p.number), ("sha", .str p.sha)]

/-- `json.Unmarshal` into a `Pull` (missing fields keep their zero value). -/
def decodePull : Json → Option Pull
  | Json.obj fs => do
      let number ← match fs.lookup "number" with
        | none => some 0
        | some (Json.num n) => some n
        | _ => none
      let sha ← match fs.lookup "sha" with
        | none => some ""
        | some (Json.str s) => some s
        | _ => none
      some ⟨number, sha⟩
  | _ => none

/-- Decode a string-typed struct field; missing or `null` gives `""`. -/
def decodeStringField (fs : List (String × Json)) (key : String) : Option String :=
  match fs.lookup key with
  | none => some ""
  | some (Json.str s) => some s
  | some Json.null => some ""
  | _ => none

/-- `json.Marshal` of a `Refs` value. -/
def encodeRefs (r : Refs) : Json :=
  .obj [("org", .str r.org), ("repo", .str r.repo), ("base_ref", .str r.baseRef),
        ("base_sha", .str r.baseSHA), ("pulls", .arr (r.pulls.map encodePull))]

/-- `json.Unmarshal` of a JSON array into a `[]Pull` slice, element-wise. -/
def decodePulls : List Json → Option (List Pull)
  | [] => some []
  | j :: rest => do
      let p ← decodePull j
      let ps ← decodePulls rest
      some (p :: ps)

/-- `json.Unmarshal` into a `Refs` value. -/
def decodeRefs : Json → Option Refs
  | Json.obj fs => do
      let org ← decodeStringField fs "org"
      let repo ← decodeStringField fs "repo"
      let baseRef ← decodeStringField fs "base_ref"
      let baseSHA ← decodeStringField fs "base_sha"
      let pulls ← match fs.lookup "pulls" with
        | none => some []
        | some Json.null => some []
        | some (Json.arr xs) => decodePulls xs
        | _ => none
      some ⟨org, repo, baseRef, baseSHA, pulls⟩
  | _ => none

/-- Decode a map-typed struct field; a missing field keeps the nil map. -/
def decodeMapField (fs : List (String × Json)) (key : String) : Option LabelMap :=
  match fs.lookup key with
  | none => some []
  | some j => decodeStringMap j

/-- Decode the optional `refs` field: missing or `null` keeps the nil
pointer. -/
def decodeRefsField (j : Option Json) : Option (Option Refs) :=
  match j with
  | none => some none
  | some Json.null => some none
  | some j => (decodeRefs j).map some

/-- `json.Marshal` of a `ProwJobEvent` with the struct's tags:
`name`, then `refs,omitempty`, `envs,omitempty`, `labels,omitempty`,
`annotations,omitempty`. -/
def encodeProwJobEvent (pe : ProwJobEvent) : Json :=
  .obj ([("name", .str pe.name)]
    ++ (match pe.refs with | none => [] | some r => [("refs", encodeRefs r)])
    ++ (if pe.envs.isEmpty then [] else [("envs", encodeStringMap pe.envs)])
    ++ (if pe.labels.isEmpty then [] else [("labels", encodeStringMap pe.labels)])
    ++ (if pe.annotations.isEmpty then []
        else [("annotations", encodeStringMap pe.annotations)]))

/-- `json.Unmarshal` into a `ProwJobEvent`. -/
def decodeProwJobEvent : Json → Option ProwJobEvent
  | Json.obj fs => do
      let name ← decodeStringField fs "name"
      let refs ← decodeRefsField (fs.lookup "refs")
      let envs ← decodeMapField fs "envs"
      let labels ← decodeMapField fs "labels"
      let annotations ← decodeMapField fs "annotations"
      some ⟨name, refs, envs, labels, annotations⟩
  | Json.null => some { name := "" }
  | _ => none

/-- `ProwJobEvent.FromPayload`: `json.Unmarshal` into a fresh event. -/
def FromPayload (data : Json) : Except String ProwJobEvent :=
  match decodeProwJobEvent data with
  | some pe => .ok pe
  | none => .error "json: cannot unmarshal payload into ProwJobEvent"

/-- Event-class attribute key (`prow.k8s.io/pubsub.EventType`). -/
def prowEventType : String := "prow.k8s.io/pubsub.EventType"
def periodicProwJobEvent : String := "prow.k8s.io/pubsub.PeriodicProwJobEvent"
def presubmitProwJobEvent : String := "prow.k8s.io/pubsub.PresubmitProwJobEvent"
def postsubmitProwJobEvent : String := "prow.k8s.io/pubsub.PostsubmitProwJobEvent"

/-- A Pub/Sub message: payload plus string attributes. -/
structure Message where
  data : Json
  attributes : List (String × String)
  id : String := ""
  deriving Repr

/-- `ProwJobEvent.ToMessage`: marshal the event and tag the message with the
periodic event type. -/
def ToMessage (pe : ProwJobEvent) : Except String Message :=
  .ok { data := encodeProwJobEvent pe
        attributes := [(prowEventType, periodicProwJobEvent)] }

theorem decodePairs_encode (m : LabelMap) :
    decodePairs (m.map fun kv => (kv.1, Json.str kv.2)) = some m := by
  induction m with
  | nil => rfl
  | cons kv rest ih => cases kv; simp [decodePairs, ih]

theorem decodeStringMap_encode (m : LabelMap) :
    decodeStringMap (encodeStringMap m) = some m := by
  simp [decodeStringMap, encodeStringMap, decodePairs_encode]

theorem decodePull_encode (p : Pull) : decodePull (encodePull p) = some p := by
  cases p
  simp [decodePull, encodePull, List.lookup]

theorem decodePulls_encode (ps : List Pull) :
    decodePulls (ps.map encodePull) = some ps := by
  induction ps with
  | nil => rfl
  | cons p rest ih => simp [decodePulls, decodePull_encode, ih]

theorem decodeRefs_encode (r : Refs) : decodeRefs (encodeRefs r) = some r := by
  cases r with
  | mk org repo baseRef baseSHA pulls =>
    simp [decodeRefs, encodeRefs, decodeStringField, List.lookup,
      decodePulls_encode]

theorem decodeRefsField_none : decodeRefsField none = some none := rfl

theorem decodeRefsField_encode (r : Refs) :
    decodeRefsField (some (encodeRefs r)) = some (some r) := by
  have h := decodeRefs_encode r
  rcases r with ⟨org, repo, baseRef, baseSHA, pulls⟩
  simp only [encodeRefs] at h ⊢
  simp [decodeRefsField, h]

theorem decodeProwJobEvent_encode (pe : ProwJobEvent) :
    decodeProwJobEvent (encodeProwJobEvent pe) = some pe := by
  rcases pe with ⟨name, refs, envs, labels, annotations⟩
  cases refs <;> cases envs <;> cases labels <;> cases annotations <;>
    simp [decodeProwJobEvent, encodeProwJobEvent, decodeStringField,
      decodeMapField, decodeStringMap, List.lookup, decodeRefsField_none,
      decodeRefsField_encode, encodeStringMap, decodePairs, decodePairs_encode]

/-- C8: for every TriggerEvent, encoding it with `ToMessage` and decoding the
resulting message's payload with `FromPayload` yields the original event back
(equality on all fields, hence on all populated fields). -/
theorem toMessage_fromPayload_roundtrip (pe : ProwJobEvent) :
    ∃ m, ToMessage pe = .ok m ∧ FromPayload m.data = .ok pe := by
  refine ⟨_, rfl, ?_⟩
  simp [FromPayload, decodeProwJobEvent_encode]

/-! ## Job catalog and resolved-spec data model -/

/-- `corev1.EnvVar` (name/value pairs only, as built by the subscriber). -/
structure EnvVar where
  name : String
  value : String
  deriving Repr, DecidableEq

/-- A pod-template container: only its environment list is touched here. -/
structure Container where
  env : List EnvVar := []
  deriving Repr, DecidableEq

/-- A job's pod template. -/
structure PodSpec where
  containers : List Container := []
  deriving Repr, DecidableEq

/-- The slice of `prowjobs/v1.ProwJobSpec` the subscriber reads and writes:
the target cluster and the optional pod template. -/
structure ProwJobSpec where
  cluster : String := ""
  podSpec : Option PodSpec := none
  deriving Repr, DecidableEq

/-- `prowapi.TriggeredState`. -/
def TriggeredState : String := "triggered"
/-- `prowapi.ErrorState`. -/
def ErrorState : String := "error"

/-- ProwJob status: state plus description, as set by `reportProwJob`. -/
structure ProwJobStatus where
  state : String
  description : String
  deriving Repr, DecidableEq

/-- A ProwJob object as submitted/reported by the subscriber. -/
structure ProwJob where
  spec : ProwJobSpec
  labels : LabelMap
  annotations : LabelMap
  status : ProwJobStatus
  deriving Repr, DecidableEq

/-- Model of `pjutil.NewProwJob`: wrap spec, labels and annotations into a
fresh ProwJob (the library's additional system-default labels are outside
this repository and not modelled).  A Go `nil` labels map reads as `[]`. -/
def NewProwJob (spec : ProwJobSpec) (labels : LabelMap) (annotations : LabelMap) :
    ProwJob :=
  { spec := spec, labels := labels, annotations := annotations,
    status := { state := TriggeredState, description := "" } }

/-- The zero `prowapi.ProwJobSpec{}` used when resolution failed. -/
def emptySpec : ProwJobSpec := {}

/-- Catalog job definition: the fields of `config.Periodic` /
`config.Presubmit` / `config.Postsubmit` that the subscriber reads.
`couldRun` models the library's branch-matching predicate
(`job.CouldRun(branch)`).  `labels` is a reference into the heap of label
maps (Go maps are reference types; `none` is a nil map). -/
structure JobDef where
  name : String
  cluster : String := ""
  couldRun : String → Bool := fun _ => true
  labels : Option Nat := none
  podSpec : Option PodSpec := none

/-- Model of `pjutil.PeriodicSpec`: the spec takes the job's cluster and pod
template. -/
def PeriodicSpec (j : JobDef) : ProwJobSpec :=
  { cluster := j.cluster, podSpec := j.podSpec }

/-- Model of `pjutil.PresubmitSpec`. -/
def PresubmitSpec (j : JobDef) (_refs : Refs) : ProwJobSpec :=
  { cluster := j.cluster, podSpec := j.podSpec }

/-- Model of `pjutil.PostsubmitSpec`. -/
def PostsubmitSpec (j : JobDef) (_refs : Refs) : ProwJobSpec :=
  { cluster := j.cluster, podSpec := j.podSpec }

/-- The `prowCfgClient` interface: the catalog snapshot. -/
structure Config where
  allPeriodics : List JobDef := []
  getPresubmitsStatic : String → List JobDef := fun _ => []
  getPostsubmitsStatic : String → List JobDef := fun _ => []

/-- The `config.InRepoConfigCache` interface: dynamic per-repository catalog
lookups, taking the org/repo key, the base SHA and (for presubmits) the pull
head SHAs. -/
structure InRepoConfigCache where
  getPresubmits : String → String → List String → Except String (List JobDef)
  getPostsubmits : String → String → Except String (List JobDef)

/-! ## Job-class resolvers -/

/-- `fmt.Errorf("failed to find associated %s job %q", kind, name)`. -/
def notFoundErr (kind name : String) : String :=
  "failed to find associated " ++ kind ++ " job \"" ++ name ++ "\""

/-- `fmt.Errorf("%s matches multiple prow jobs", name)`. -/
def multiMatchErr (name : String) : String :=
  name ++ " matches multiple prow jobs"

/-- The shared presubmit/postsubmit selection loop: skip entries whose branch
predicate rejects `branch` (`!job.CouldRun(branch) → continue`); on a name
match, a previously found match is the ambiguity error, else remember the
entry; after the loop, no match is the not-found error. -/
def selectJobAux (kind name branch : String) :
    List JobDef → Option JobDef → Except String JobDef
  | [], none => .error (notFoundErr kind name)
  | [], some j => .ok j
  | j :: rest, acc =>
    if j.couldRun branch then
      if j.name = name then
        match acc with
        | some _ => .error (multiMatchErr name)
        | none => selectJobAux kind name branch rest (some j)
      else selectJobAux kind name branch rest acc
    else selectJobAux kind name branch rest acc

def selectJob (kind name branch : String) (jobs : List JobDef) :
    Except String JobDef :=
  selectJobAux kind name branch jobs none

/-- An entry counts as a match when its branch predicate accepts the base ref
and its name equals the event's job name. -/
def branchNameMatch (name branch : String) (j : JobDef) : Bool :=
  j.couldRun branch && j.name == name

/-- A resolver: `jobHandler.getProwJobSpec(cfg, pc, pe)`, returning the spec
and the job's labels-map reference. -/
abbrev JobHandler :=
  Config → Option InRepoConfigCache → ProwJobEvent →
    Except String (ProwJobSpec × Option Nat)

/-- `periodicJobHandler.getProwJobSpec`: first periodic whose name equals the
event name; the inrepoconfig cache is unused. -/
def periodicGetProwJobSpec : JobHandler := fun cfg _ pe =>
  match cfg.allPeriodics.find? (fun j => j.name == pe.name) with
  | none => .error (notFoundErr "periodic" pe.name)
  | some j => .ok (PeriodicSpec j, j.labels)

/-- Lines 213–229: static presubmits, overwritten by the inrepoconfig result
when the cache is configured and the lookup succeeds; on lookup failure the
error is only logged and the static list is kept. -/
def effectivePresubmits (cfg : Config) (pc : Option InRepoConfigCache)
    (orgRepo baseSHA : String) (headSHAs : List String) : List JobDef :=
  match pc with
  | none => cfg.getPresubmitsStatic orgRepo
  | some c =>
    match c.getPresubmits orgRepo baseSHA headSHAs with
    | .error _ => cfg.getPresubmitsStatic orgRepo
    | .ok l => l

/-- `presubmitJobHandler.getProwJobSpec`. -/
def presubmitGetProwJobSpec : JobHandler := fun cfg pc pe =>
  match pe.refs with
  | none => .error "Refs must be supplied"
  | some refs =>
    if refs.org = "" then .error "org must be supplied"
    else if refs.repo = "" then .error "repo must be supplied"
    else if refs.pulls = [] then .error "at least 1 Pulls is required"
    else if refs.baseSHA = "" then .error "baseSHA must be supplied"
    else if refs.baseRef = "" then .error "baseRef must be supplied"
    else
      let orgRepo := refs.org ++ "/" ++ refs.repo
      let presubmits :=
        effectivePresubmits cfg pc orgRepo refs.baseSHA (refs.pulls.map Pull.sha)
      match selectJob "presubmit" pe.name refs.baseRef presubmits with
      | .error e => .error e
      | .ok j => .ok (PresubmitSpec j refs, j.labels)

/-- The postsubmit analogue of `effectivePresubmits` (no head SHAs). -/
def effectivePostsubmits (cfg : Config) (pc : Option InRepoConfigCache)
    (orgRepo baseSHA : String) : List JobDef :=
  match pc with
  | none => cfg.getPostsubmitsStatic orgRepo
  | some c =>
    match c.getPostsubmits orgRepo baseSHA with
    | .error _ => cfg.getPostsubmitsStatic orgRepo
    | .ok l => l

/-- `postsubmitJobHandler.getProwJobSpec` (no pulls requirement). -/
def postsubmitGetProwJobSpec : JobHandler := fun cfg pc pe =>
  match pe.refs with
  | none => .error "refs must be supplied"
  | some refs =>
    if refs.org = "" then .error "org must be supplied"
    else if refs.repo = "" then .error "repo must be supplied"
    else if refs.baseSHA = "" then .error "baseSHA must be supplied"
    else if refs.baseRef = "" then .error "baseRef must be supplied"
    else
      let orgRepo := refs.org ++ "/" ++ refs.repo
      let postsubmits := effectivePostsubmits cfg pc orgRepo refs.baseSHA
      match selectJob "postsubmit" pe.name refs.baseRef postsubmits with
      | .error e => .error e
      | .ok j => .ok (PostsubmitSpec j refs, j.labels)

/-! ## Dispatcher -/

/-- `extractFromAttribute`. -/
def extractFromAttribute (attrs : List (String × String)) (key : String) :
    Except String String :=
  match attrs.lookup key with
  | none => .error ("unable to find \"" ++ key ++ "\" from the attributes")
  | some v => .ok v

/-- The `Subscriber` collaborators: catalog snapshot, optional inrepoconfig
cache, reporter policy and submission sink outcome. -/
structure Subscriber where
  cfg : Config
  inRepoConfigCache : Option InRepoConfigCache := none
  shouldReport : ProwJob → Bool := fun _ => true
  createResult : ProwJob → Option String := fun _ => none

/-- Go map assignment `m[k] = v` on the association-list model: replace the
entry for `k` if one exists, else append a fresh entry. -/
def mapInsert : LabelMap → String → String → LabelMap
  | [], k, v => [(k, v)]
  | kv :: rest, k, v =>
    if kv.1 = k then (k, v) :: rest else kv :: mapInsert rest k v

/-- Go map read `m[k]` on the association-list model. -/
def lookupKey : LabelMap → String → Option String
  | [], _ => none
  | kv :: rest, k => if kv.1 = k then some kv.2 else lookupKey rest k

/-- `for k, v := range ev { m[k] = v }`. -/
def mergeLabels (base : LabelMap) (ev : LabelMap) : LabelMap :=
  ev.foldl (fun acc kv => mapInsert acc kv.1 kv.2) base

/-- Read a label map object out of the heap. -/
def heapGet (heap : List LabelMap) (r : Nat) : LabelMap :=
  heap.getD r []

/-- Dereference the resolver-returned labels map: `nil` reads as empty
(`if labels == nil { labels = make(map[string]string) }`). -/
def baseLabelsOf (heap : List LabelMap) : Option Nat → LabelMap
  | none => []
  | some rf => heapGet heap rf

/-- Store the merged map back through the resolver's reference: writing to a
shared Go map mutates the referenced object; a fresh map leaves the heap
unchanged. -/
def writeBackLabels (heap : List LabelMap) : Option Nat → LabelMap → List LabelMap
  | none, _ => heap
  | some rf, m => heap.set rf m

/-- Observable side effects of one `handleProwJob` call. -/
structure Effects where
  result : Option String
  created : List ProwJob := []
  reportCalls : List ProwJob := []
  reported : List ProwJob := []
  heap : List LabelMap
  deriving Repr, DecidableEq

/-- The `reportProwJob` closure: set state, set the description (success
text, overwritten by the failure text when an error is given), then report
if the reporter's policy says so.  Returns the decorated job and the list of
jobs actually handed to `Reporter.Report`. -/
def reportProwJob (s : Subscriber) (pj : ProwJob) (state : String)
    (err : Option String) : ProwJob × List ProwJob :=
  let description := match err with
    | none => "Successfully triggered prowjob."
    | some e => "Failed creating prowjob: " ++ e
  let pj := { pj with status := { state := state, description := description } }
  (pj, if s.shouldReport pj then [pj] else [])

/-- `reportProwJobFailure`. -/
def reportProwJobFailure (s : Subscriber) (pj : ProwJob) (e : String) :
    ProwJob × List ProwJob :=
  reportProwJob s pj ErrorState (some e)

/-- `reportProwJobTriggered`. -/
def reportProwJobTriggered (s : Subscriber) (pj : ProwJob) :
    ProwJob × List ProwJob :=
  reportProwJob s pj TriggeredState none

/-- The disallowed-cluster error message. -/
def clusterNotAllowedErr (cluster : String) : String :=
  "cluster " ++ cluster ++
    " is not allowed. Can be fixed by defining this cluster under pubsub_triggers -> allowed_clusters"

/-- Model of `strings.TrimSpace`: drop leading and trailing whitespace. -/
def trimSpace (s : String) : String :=
  String.mk
    (((s.data.dropWhile Char.isWhitespace).reverse.dropWhile
        Char.isWhitespace).reverse)

/-- The event-supplied environment entries as `corev1.EnvVar`s. -/
def envVarsOfEvent (pe : ProwJobEvent) : List EnvVar :=
  pe.envs.map fun kv => ⟨kv.1, kv.2⟩

/-- Lines 426–433: append the event's env entries to every container of the
pod template, if there is one. -/
def addEventEnvs (pj : ProwJob) (pe : ProwJobEvent) : ProwJob :=
  match pj.spec.podSpec with
  | none => pj
  | some ps =>
    let ps' : PodSpec :=
      { containers :=
          ps.containers.map fun c => { c with env := c.env ++ envVarsOfEvent pe } }
    { pj with spec := { pj.spec with podSpec := some ps' } }

/-- `Subscriber.handleProwJob`: decode, trim the name, resolve, enforce the
cluster allow-list, merge labels (writing through the resolver's labels-map
reference, as the Go map is shared), add annotations and envs, submit,
report.  The heap of label-map objects is threaded explicitly. -/
def handleProwJob (s : Subscriber) (heap : List LabelMap) (jh : JobHandler)
    (payload : Json) (allowedClusters : List String) : Effects :=
  match FromPayload payload with
  | .error e => { result := some e, heap := heap }
  | .ok pe0 =>
    let pe := { pe0 with name := trimSpace pe0.name }
    match jh s.cfg s.inRepoConfigCache pe with
    | .error e =>
      let (pj, rep) := reportProwJobFailure s (NewProwJob emptySpec [] pe.annotations) e
      { result := some e, reportCalls := [pj], reported := rep, heap := heap }
    | .ok (spec, labelsRef) =>
      let clusterIsAllowed :=
        allowedClusters.any fun c => c == "*" || c == spec.cluster
      if !clusterIsAllowed then
        let e := clusterNotAllowedErr spec.cluster
        let (pj, rep) := reportProwJobFailure s (NewProwJob spec [] pe.annotations) e
        { result := some e, reportCalls := [pj], reported := rep, heap := heap }
      else
        -- `labels == nil` allocates a fresh map, otherwise the event labels
        -- are written into the map object the resolver returned — which is
        -- the catalog entry's own labels map.
        let merged := mergeLabels (baseLabelsOf heap labelsRef) pe.labels
        let heap' := writeBackLabels heap labelsRef merged
        let pj := addEventEnvs (NewProwJob spec merged pe.annotations) pe
        match s.createResult pj with
        | some e =>
          let (pjF, rep) := reportProwJobFailure s pj e
          { result := some e, created := [pj], reportCalls := [pjF],
            reported := rep, heap := heap' }
        | none =>
          let (pjT, rep) := reportProwJobTriggered s pj
          { result := none, created := [pj], reportCalls := [pjT],
            reported := rep, heap := heap' }

/-- Observable side effects of one `handleMessage` call, per-subscription
counter deltas included. -/
structure MsgEffects where
  result : Option String
  messageCounterInc : Nat
  errorCounterInc : Nat
  counterLabel : String
  prowJobEffects : Option Effects
  deriving Repr, DecidableEq

/-- `fmt.Errorf("unsupported event type: %s", eType)`. -/
def unsupportedEventTypeErr (t : String) : String :=
  "unsupported event type: " ++ t

/-- `Subscriber.handleMessage`: bump the message counter, extract the
event-class attribute, pick the handler, run `handleProwJob`.  On every
error path the source fetches the subscription-tagged error counter child
(`s.Metrics.ErrorCounter.With(...)`) but never calls `Inc` on it, so the
error counter delta is 0 throughout. -/
def handleMessage (s : Subscriber) (heap : List LabelMap) (msg : Message)
    (subscription : String) (allowedClusters : List String) : MsgEffects :=
  match extractFromAttribute msg.attributes prowEventType with
  | .error e =>
    { result := some e, messageCounterInc := 1, errorCounterInc := 0,
      counterLabel := subscription, prowJobEffects := none }
  | .ok eType =>
    let run := fun (jh : JobHandler) =>
      let eff := handleProwJob s heap jh msg.data allowedClusters
      { result := eff.result, messageCounterInc := 1, errorCounterInc := 0,
        counterLabel := subscription, prowJobEffects := some eff : MsgEffects }
    if eType = periodicProwJobEvent then run periodicGetProwJobSpec
    else if eType = presubmitProwJobEvent then run presubmitGetProwJobSpec
    else if eType = postsubmitProwJobEvent then run postsubmitGetProwJobSpec
    else
      { result := some (unsupportedEventTypeErr eType), messageCounterInc := 1,
        errorCounterInc := 0, counterLabel := subscription, prowJobEffects := none }

/-! ## Lemmas about the selection loop -/

theorem selectJobAux_eq (kind name branch : String) (jobs : List JobDef)
    (acc : Option JobDef) :
    selectJobAux kind name branch jobs acc =
      match acc, jobs.filter (branchNameMatch name branch) with
      | none, [] => .error (notFoundErr kind name)
      | some j, [] => .ok j
      | some _, _ :: _ => .error (multiMatchErr name)
      | none, [j] => .ok j
      | none, _ :: _ :: _ => .error (multiMatchErr name) := by
  induction jobs generalizing acc with
  | nil => cases acc <;> rfl
  | cons j rest ih =>
    cases hc : j.couldRun branch with
    | false =>
      have hfil : (j :: rest).filter (branchNameMatch name branch) =
          rest.filter (branchNameMatch name branch) := by
        simp [List.filter_cons, branchNameMatch, hc]
      have hstep : selectJobAux kind name branch (j :: rest) acc =
          selectJobAux kind name branch rest acc := by
        cases acc <;> simp [selectJobAux, hc]
      rw [hstep, hfil, ih]
    | true =>
      by_cases hn : j.name = name
      · have hfil : (j :: rest).filter (branchNameMatch name branch) =
            j :: rest.filter (branchNameMatch name branch) := by
          simp [List.filter_cons, branchNameMatch, hc, hn]
        cases acc with
        | none =>
          have hstep : selectJobAux kind name branch (j :: rest) none =
              selectJobAux kind name branch rest (some j) := by
            simp [selectJobAux, hc, hn]
          rw [hstep, ih, hfil]
          cases rest.filter (branchNameMatch name branch) <;> rfl
        | some j' =>
          have hstep : selectJobAux kind name branch (j :: rest) (some j') =
              .error (multiMatchErr name) := by
            simp [selectJobAux, hc, hn]
          rw [hstep, hfil]
      · have hfil : (j :: rest).filter (branchNameMatch name branch) =
            rest.filter (branchNameMatch name branch) := by
          simp [List.filter_cons, branchNameMatch, hn]
        have hstep : selectJobAux kind name branch (j :: rest) acc =
            selectJobAux kind name branch rest acc := by
          cases acc <;> simp [selectJobAux, hc, hn]
        rw [hstep, hfil, ih]

/-! ## Lemmas about label-map merging -/

theorem lookupKey_mapInsert (m : LabelMap) (k v k' : String) :
    lookupKey (mapInsert m k v) k' = if k' = k then some v else lookupKey m k' := by
  induction m with
  | nil =>
    by_cases h : k' = k
    · simp [mapInsert, lookupKey, h]
    · simp [mapInsert, lookupKey, h, Ne.symm h]
  | cons kv rest ih =>
    by_cases hk : kv.1 = k
    · by_cases h : k' = k
      · simp [mapInsert, lookupKey, hk, h]
      · simp [mapInsert, lookupKey, hk, h, Ne.symm h]
    · by_cases h : kv.1 = k'
      · have hk' : k' ≠ k := fun hkk => hk (h.symm ▸ hkk)
        simp [mapInsert, lookupKey, hk, h, hk', ih]
      · simp [mapInsert, lookupKey, hk, h, ih]

theorem lookupKey_eq_none_of_not_mem_keys (m : LabelMap) (k : String)
    (h : k ∉ m.map Prod.fst) : lookupKey m k = none := by
  induction m with
  | nil => rfl
  | cons kv rest ih =>
    simp only [List.map_cons, List.mem_cons] at h
    push_neg at h
    simp [lookupKey, Ne.symm h.1, ih h.2]

theorem lookupKey_mergeLabels (base ev : LabelMap)
    (hnd : (ev.map Prod.fst).Nodup) (k : String) :
    lookupKey (mergeLabels base ev) k =
      match lookupKey ev k with
      | some v => some v
      | none => lookupKey base k := by
  induction ev generalizing base with
  | nil => simp [mergeLabels, lookupKey]
  | cons kv rest ih =>
    simp only [List.map_cons, List.nodup_cons] at hnd
    have step : mergeLabels base (kv :: rest) =
        mergeLabels (mapInsert base kv.1 kv.2) rest := rfl
    rw [step, ih _ hnd.2]
    by_cases hk : k = kv.1
    · have hre : lookupKey rest kv.1 = none :=
        lookupKey_eq_none_of_not_mem_keys rest kv.1 hnd.1
      simp [hk, hre, lookupKey, lookupKey_mapInsert]
    · cases h : lookupKey rest k <;>
        simp [h, lookupKey, lookupKey_mapInsert, hk, Ne.symm hk]

/-! ## Claim theorems -/

/-- C2: for every presubmit event whose refs are absent, or whose refs have
an empty org, repo, pulls list, baseSHA or baseRef, the presubmit resolver
fails with the distinct validation error for the first unmet precondition in
the order refs, org, repo, pulls, baseSHA, baseRef; no spec is returned, and
the dispatcher creates no job. -/
theorem presubmit_validation (cfg : Config) (pc : Option InRepoConfigCache)
    (pe : ProwJobEvent) :
    (pe.refs = none →
      presubmitGetProwJobSpec cfg pc pe = .error "Refs must be supplied") ∧
    (∀ r, pe.refs = some r →
      (r.org = "" →
        presubmitGetProwJobSpec cfg pc pe = .error "org must be supplied") ∧
      (r.org ≠ "" → r.repo = "" →
        presubmitGetProwJobSpec cfg pc pe = .error "repo must be supplied") ∧
      (r.org ≠ "" → r.repo ≠ "" → r.pulls = [] →
        presubmitGetProwJobSpec cfg pc pe = .error "at least 1 Pulls is required") ∧
      (r.org ≠ "" → r.repo ≠ "" → r.pulls ≠ [] → r.baseSHA = "" →
        presubmitGetProwJobSpec cfg pc pe = .error "baseSHA must be supplied") ∧
      (r.org ≠ "" → r.repo ≠ "" → r.pulls ≠ [] → r.baseSHA ≠ "" → r.baseRef = "" →
        presubmitGetProwJobSpec cfg pc pe = .error "baseRef must be supplied")) ∧
    (∀ (s : Subscriber) heap payload allowed e,
      FromPayload payload = .ok pe →
      presubmitGetProwJobSpec s.cfg s.inRepoConfigCache
          { pe with name := trimSpace pe.name } = .error e →
      (handleProwJob s heap presubmitGetProwJobSpec payload allowed).created = [] ∧
      (handleProwJob s heap presubmitGetProwJobSpec payload allowed).result = some e) := by
  refine ⟨?_, ?_, ?_⟩
  · intro h; simp [presubmitGetProwJobSpec, h]
  · intro r hr
    refine ⟨?_, ?_, ?_, ?_, ?_⟩
    · intro h1; simp [presubmitGetProwJobSpec, hr, h1]
    · intro h1 h2; simp [presubmitGetProwJobSpec, hr, h1, h2]
    · intro h1 h2 h3; simp [presubmitGetProwJobSpec, hr, h1, h2, h3]
    · intro h1 h2 h3 h4; simp [presubmitGetProwJobSpec, hr, h1, h2, h3, h4]
    · intro h1 h2 h3 h4 h5
      simp [presubmitGetProwJobSpec, hr, h1, h2, h3, h4, h5]
  · intro s heap payload allowed e hdec hjh
    constructor <;>
      simp [handleProwJob, hdec, hjh, reportProwJobFailure, reportProwJob]

/-- C3: with validation satisfied, two or more catalog entries matching the
event's name whose branch predicate accepts the base ref make presubmit
(resp. postsubmit) resolution fail with the "matches multiple prow jobs"
error, and zero such entries make it fail with the
"failed to find associated … job" error; in either case the dispatcher
creates no job. -/
theorem resolution_match_cardinality (cfg : Config)
    (pc : Option InRepoConfigCache) (pe : ProwJobEvent) (r : Refs)
    (hr : pe.refs = some r) (ho : r.org ≠ "") (hrp : r.repo ≠ "")
    (hpl : r.pulls ≠ []) (hbs : r.baseSHA ≠ "") (hbr : r.baseRef ≠ "") :
    (2 ≤ ((effectivePresubmits cfg pc (r.org ++ "/" ++ r.repo) r.baseSHA
            (r.pulls.map Pull.sha)).filter
              (branchNameMatch pe.name r.baseRef)).length →
      presubmitGetProwJobSpec cfg pc pe = .error (multiMatchErr pe.name)) ∧
    ((effectivePresubmits cfg pc (r.org ++ "/" ++ r.repo) r.baseSHA
        (r.pulls.map Pull.sha)).filter (branchNameMatch pe.name r.baseRef) = [] →
      presubmitGetProwJobSpec cfg pc pe = .error (notFoundErr "presubmit" pe.name)) ∧
    (2 ≤ ((effectivePostsubmits cfg pc (r.org ++ "/" ++ r.repo) r.baseSHA).filter
            (branchNameMatch pe.name r.baseRef)).length →
      postsubmitGetProwJobSpec cfg pc pe = .error (multiMatchErr pe.name)) ∧
    ((effectivePostsubmits cfg pc (r.org ++ "/" ++ r.repo) r.baseSHA).filter
        (branchNameMatch pe.name r.baseRef) = [] →
      postsubmitGetProwJobSpec cfg pc pe = .error (notFoundErr "postsubmit" pe.name)) ∧
    (∀ (s : Subscriber) heap (jh : JobHandler) payload allowed e,
      FromPayload payload = .ok pe →
      jh s.cfg s.inRepoConfigCache { pe with name := trimSpace pe.name } = .error e →
      (handleProwJob s heap jh payload allowed).created = []) := by
  refine ⟨?_, ?_, ?_, ?_, ?_⟩
  · intro h2
    simp only [presubmitGetProwJobSpec, hr, ho, hrp, hpl, hbs, hbr, if_neg,
      ne_eq, not_false_eq_true, selectJob, selectJobAux_eq]
    cases hfil : (effectivePresubmits cfg pc (r.org ++ "/" ++ r.repo) r.baseSHA
        (r.pulls.map Pull.sha)).filter (branchNameMatch pe.name r.baseRef) with
    | nil => rw [hfil] at h2; simp at h2
    | cons a t =>
      cases t with
      | nil => rw [hfil] at h2; simp at h2
      | cons b t' => simp [hfil]
  · intro hfil
    simp only [presubmitGetProwJobSpec, hr, ho, hrp, hpl, hbs, hbr, if_neg,
      ne_eq, not_false_eq_true, selectJob, selectJobAux_eq]
    simp [hfil]
  · intro h2
    simp only [postsubmitGetProwJobSpec, hr, ho, hrp, hbs, hbr, if_neg,
      ne_eq, not_false_eq_true, selectJob, selectJobAux_eq]
    cases hfil : (effectivePostsubmits cfg pc (r.org ++ "/" ++ r.repo)
        r.baseSHA).filter (branchNameMatch pe.name r.baseRef) with
    | nil => rw [hfil] at h2; simp at h2
    | cons a t =>
      cases t with
      | nil => rw [hfil] at h2; simp at h2
      | cons b t' => simp [hfil]
  · intro hfil
    simp only [postsubmitGetProwJobSpec, hr, ho, hrp, hbs, hbr, if_neg,
      ne_eq, not_false_eq_true, selectJob, selectJobAux_eq]
    simp [hfil]
  · intro s heap jh payload allowed e hdec hjh
    simp [handleProwJob, hdec, hjh, reportProwJobFailure, reportProwJob]

theorem lookupKey_of_mem (m : LabelMap) (k v : String)
    (hnd : (m.map Prod.fst).Nodup) (h : (k, v) ∈ m) :
    lookupKey m k = some v := by
  induction m with
  | nil => cases h
  | cons kv rest ih =>
    simp only [List.map_cons, List.nodup_cons] at hnd
    rcases List.mem_cons.mp h with rfl | hmem
    · simp [lookupKey]
    · have hk : k ∈ rest.map Prod.fst := List.mem_map_of_mem Prod.fst hmem
      have hne : kv.1 ≠ k := fun he => hnd.1 (he ▸ hk)
      simp [lookupKey, hne, ih hnd.2 hmem]

/-- On resolver success with an allowed cluster, `handleProwJob` creates
exactly one job — the spec wrapped with the merged labels, the event's
annotations and env entries — and writes the merged labels back through the
resolver's labels-map reference. -/
theorem handleProwJob_ok (s : Subscriber) (heap : List LabelMap)
    (jh : JobHandler) (payload : Json) (allowed : List String)
    (pe : ProwJobEvent) (spec : ProwJobSpec) (labelsRef : Option Nat)
    (hdec : FromPayload payload = .ok pe)
    (hjh : jh s.cfg s.inRepoConfigCache { pe with name := trimSpace pe.name } =
      .ok (spec, labelsRef))
    (hallow : allowed.any (fun c => c == "*" || c == spec.cluster) = true) :
    (handleProwJob s heap jh payload allowed).created =
      [addEventEnvs
        (NewProwJob spec
          (mergeLabels (baseLabelsOf heap labelsRef) pe.labels)
          pe.annotations)
        { pe with name := trimSpace pe.name }] ∧
    (handleProwJob s heap jh payload allowed).heap =
      writeBackLabels heap labelsRef
        (mergeLabels (baseLabelsOf heap labelsRef) pe.labels) := by
  simp only [handleProwJob, hdec, hjh, hallow, Bool.not_true, Bool.false_eq_true,
    if_false, ite_false]
  cases s.createResult _ <;> simp

/-- C7: with a dynamic catalog source configured, a successful dynamic lookup
makes presubmit resolution behave exactly as if the returned list were the
whole (static) catalog — the static list is replaced, not merged — while a
failed dynamic lookup makes resolution behave exactly as if no dynamic
source were configured: the static list is used and the lookup error is
never propagated. -/
theorem presubmit_dynamic_catalog (cfg : Config) (c : InRepoConfigCache)
    (pe : ProwJobEvent) (r : Refs) (hr : pe.refs = some r) :
    (∀ l, c.getPresubmits (r.org ++ "/" ++ r.repo) r.baseSHA
        (r.pulls.map Pull.sha) = .ok l →
      presubmitGetProwJobSpec cfg (some c) pe =
        presubmitGetProwJobSpec
          { cfg with getPresubmitsStatic := fun _ => l } none pe) ∧
    (∀ e, c.getPresubmits (r.org ++ "/" ++ r.repo) r.baseSHA
        (r.pulls.map Pull.sha) = .error e →
      presubmitGetProwJobSpec cfg (some c) pe =
        presubmitGetProwJobSpec cfg none pe) := by
  constructor
  · intro l h
    simp only [presubmitGetProwJobSpec, hr]
    have he : effectivePresubmits cfg (some c) (r.org ++ "/" ++ r.repo)
        r.baseSHA (r.pulls.map Pull.sha) = l := by
      simp [effectivePresubmits, h]
    have he' : effectivePresubmits { cfg with getPresubmitsStatic := fun _ => l }
        none (r.org ++ "/" ++ r.repo) r.baseSHA (r.pulls.map Pull.sha) = l := by
      simp [effectivePresubmits]
    rw [he, he']
  · intro e h
    simp only [presubmitGetProwJobSpec, hr]
    have he : effectivePresubmits cfg (some c) (r.org ++ "/" ++ r.repo)
        r.baseSHA (r.pulls.map Pull.sha) =
        cfg.getPresubmitsStatic (r.org ++ "/" ++ r.repo) := by
      simp [effectivePresubmits, h]
    have he' : effectivePresubmits cfg none (r.org ++ "/" ++ r.repo)
        r.baseSHA (r.pulls.map Pull.sha) =
        cfg.getPresubmitsStatic (r.org ++ "/" ++ r.repo) := by
      simp [effectivePresubmits]
    rw [he, he']

theorem addEventEnvs_labels (pj : ProwJob) (pe : ProwJobEvent) :
    (addEventEnvs pj pe).labels = pj.labels := by
  cases h : pj.spec.podSpec <;> simp [addEventEnvs, h]

/-- C4: for every successfully resolved event, the submitted job's label set
is the resolver's base labels (the empty mapping when the resolver returned
a nil map) overlaid with the event's labels, the event winning on key
collisions; in particular every event-supplied pair is present. -/
theorem submitted_job_labels (s : Subscriber) (heap : List LabelMap)
    (jh : JobHandler) (payload : Json) (allowed : List String)
    (pe : ProwJobEvent) (spec : ProwJobSpec) (labelsRef : Option Nat)
    (hdec : FromPayload payload = .ok pe)
    (hjh : jh s.cfg s.inRepoConfigCache { pe with name := trimSpace pe.name } =
      .ok (spec, labelsRef))
    (hallow : allowed.any (fun c => c == "*" || c == spec.cluster) = true)
    (hnd : (pe.labels.map Prod.fst).Nodup) :
    ∃ pj, (handleProwJob s heap jh payload allowed).created = [pj] ∧
      (∀ k, lookupKey pj.labels k =
        match lookupKey pe.labels k with
        | some v => some v
        | none => lookupKey (baseLabelsOf heap labelsRef) k) ∧
      (∀ k v, (k, v) ∈ pe.labels → lookupKey pj.labels k = some v) := by
  obtain ⟨hcr, -⟩ :=
    handleProwJob_ok s heap jh payload allowed pe spec labelsRef hdec hjh hallow
  refine ⟨_, hcr, ?_, ?_⟩
  · intro k
    rw [addEventEnvs_labels]
    exact lookupKey_mergeLabels _ pe.labels hnd k
  · intro k v hmem
    rw [addEventEnvs_labels]
    have hm := lookupKey_mergeLabels (baseLabelsOf heap labelsRef) pe.labels hnd k
    have he := lookupKey_of_mem pe.labels k v hnd hmem
    show lookupKey (NewProwJob spec _ pe.annotations).labels k = some v
    simp only [NewProwJob] at hm ⊢
    rw [hm, he]

/-- C9: for every resolved spec that carries a pod template, each container's
environment list in the submitted job is its original list with the event's
env entries appended (uniformly, without deduplication); with no pod
template, or no event envs, the environment lists are unchanged. -/
theorem env_entries_appended (s : Subscriber) (heap : List LabelMap)
    (jh : JobHandler) (payload : Json) (allowed : List String)
    (pe : ProwJobEvent) (spec : ProwJobSpec) (labelsRef : Option Nat)
    (hdec : FromPayload payload = .ok pe)
    (hjh : jh s.cfg s.inRepoConfigCache { pe with name := trimSpace pe.name } =
      .ok (spec, labelsRef))
    (hallow : allowed.any (fun c => c == "*" || c == spec.cluster) = true) :
    ∃ pj, (handleProwJob s heap jh payload allowed).created = [pj] ∧
      (spec.podSpec = none → pj.spec.podSpec = none) ∧
      (∀ ps, spec.podSpec = some ps →
        pj.spec.podSpec = some { containers :=
          (ps.containers.map fun c => { c with env := c.env ++ envVarsOfEvent pe }) }) ∧
      (pe.envs = [] → pj.spec.podSpec = spec.podSpec) := by
  obtain ⟨hcr, -⟩ :=
    handleProwJob_ok s heap jh payload allowed pe spec labelsRef hdec hjh hallow
  refine ⟨_, hcr, ?_, ?_, ?_⟩
  · intro hps; simp [addEventEnvs, NewProwJob, hps]
  · intro ps hps; simp [addEventEnvs, NewProwJob, hps, envVarsOfEvent]
  · intro hz
    cases hps : spec.podSpec <;>
      simp [addEventEnvs, NewProwJob, hps, envVarsOfEvent, hz]

/-- C1: when the resolved spec's cluster matches no allowed cluster and the
allow-list has no wildcard, `handleProwJob` reports the job in error state
with a message naming the disallowed cluster, returns that error, and never
calls the job submission sink; conversely a wildcard entry accepts every
cluster and the sink is called. -/
theorem cluster_allowlist_enforcement (s : Subscriber) (heap : List LabelMap)
    (jh : JobHandler) (payload : Json) (allowed : List String)
    (pe : ProwJobEvent) (spec : ProwJobSpec) (labelsRef : Option Nat)
    (hdec : FromPayload payload = .ok pe)
    (hjh : jh s.cfg s.inRepoConfigCache { pe with name := trimSpace pe.name } =
      .ok (spec, labelsRef)) :
    ((∀ a ∈ allowed, a ≠ "*" ∧ a ≠ spec.cluster) →
      (handleProwJob s heap jh payload allowed).result =
        some (clusterNotAllowedErr spec.cluster) ∧
      (handleProwJob s heap jh payload allowed).created = [] ∧
      ∃ pj, (handleProwJob s heap jh payload allowed).reportCalls = [pj] ∧
        pj.status.state = ErrorState ∧
        pj.status.description =
          "Failed creating prowjob: " ++ clusterNotAllowedErr spec.cluster ∧
        pj.spec = spec) ∧
    ("*" ∈ allowed →
      ∃ pj, (handleProwJob s heap jh payload allowed).created = [pj]) := by
  constructor
  · intro h
    have hfalse : allowed.any (fun c => c == "*" || c == spec.cluster) = false := by
      rw [List.any_eq_false]
      intro a ha
      have := h a ha
      simp [this.1, this.2]
    simp only [handleProwJob, hdec, hjh, hfalse, Bool.not_false, if_true,
      ite_true, reportProwJobFailure, reportProwJob]
    exact ⟨trivial, trivial, _, rfl, rfl, rfl, rfl⟩
  · intro h
    have htrue : allowed.any (fun c => c == "*" || c == spec.cluster) = true :=
      List.any_eq_true.mpr ⟨"*", h, by simp⟩
    obtain ⟨hcr, -⟩ :=
      handleProwJob_ok s heap jh payload allowed pe spec labelsRef hdec hjh htrue
    exact ⟨_, hcr⟩

/-- C10: the missing-attribute error occurs only when the event-class key is
entirely absent; an envelope carrying the key with an empty-string (or any
other non-class) value fails with the unsupported-event-type error instead,
and in both cases `handleProwJob` is never entered, so the payload is never
decoded and no resolver is invoked. -/
theorem event_class_attribute_handling (s : Subscriber) (heap : List LabelMap)
    (attrs : List (String × String)) (payload : Json) (idStr sub : String)
    (allowed : List String) :
    (∀ v, attrs.lookup prowEventType = some v →
      v ≠ periodicProwJobEvent → v ≠ presubmitProwJobEvent →
      v ≠ postsubmitProwJobEvent →
      (handleMessage s heap ⟨payload, attrs, idStr⟩ sub allowed).result =
        some (unsupportedEventTypeErr v) ∧
      (handleMessage s heap ⟨payload, attrs, idStr⟩ sub allowed).prowJobEffects =
        none) ∧
    (attrs.lookup prowEventType = none →
      (handleMessage s heap ⟨payload, attrs, idStr⟩ sub allowed).result =
        some ("unable to find \"" ++ prowEventType ++ "\" from the attributes") ∧
      (handleMessage s heap ⟨payload, attrs, idStr⟩ sub allowed).prowJobEffects =
        none) := by
  constructor
  · intro v hv h1 h2 h3
    constructor <;>
      simp [handleMessage, extractFromAttribute, hv, h1, h2, h3]
  · intro hv
    constructor <;> simp [handleMessage, extractFromAttribute, hv]

/-- C5 (code-bug evidence): the subscription-tagged error counter is never
incremented — every error path runs `s.Metrics.ErrorCounter.With(...)`
without calling `Inc` on the fetched child — even though `handleMessage`
does return terminal errors, shown here on an envelope with no attributes. -/
theorem errorCounter_never_incremented :
    (∀ (s : Subscriber) heap msg sub allowed,
      (handleMessage s heap msg sub allowed).errorCounterInc = 0) ∧
    (handleMessage { cfg := {} } [] { data := Json.null, attributes := [] }
        "sub" ["*"]).result =
      some ("unable to find \"" ++ prowEventType ++ "\" from the attributes") := by
  constructor
  · intro s heap msg sub allowed
    rcases h : extractFromAttribute msg.attributes prowEventType with e | t
    · simp [handleMessage, h]
    · simp only [handleMessage, h]
      split_ifs <;> rfl
  · rfl

/-- Catalog used for the mutation evidence: one periodic whose labels map
lives at heap address 0. -/
def mutationCfg : Config :=
  { allPeriodics := [{ name := "nightly", cluster := "default", labels := some 0 }] }

def mutationSubscriber : Subscriber := { cfg := mutationCfg }

def mutationHeap : List LabelMap := [[("a", "1")]]

def mutationPayload : Json :=
  encodeProwJobEvent { name := "nightly", labels := [("b", "2")] }

/-- C6 (code-bug evidence): handling a periodic event that supplies a label
writes that label into the catalog entry's own labels map — the resolver
returns the map by reference and the dispatcher's merge loop mutates it —
so the catalog snapshot observable after handling differs from before. -/
theorem catalog_labels_mutated :
    (handleMessage mutationSubscriber mutationHeap
        { data := mutationPayload,
          attributes := [(prowEventType, periodicProwJobEvent)] }
        "sub" ["*"]).prowJobEffects.map Effects.heap =
      some [[("a", "1"), ("b", "2")]] ∧
    heapGet [[("a", "1"), ("b", "2")]] 0 ≠ heapGet mutationHeap 0 := by
  constructor
  · rfl
  · decide

/-! ## Concrete instances for the witness theorems -/

def wJobT : JobDef := { name := "t" }

def wRefs : Refs := { org := "o", repo := "r", baseRef := "m", baseSHA := "s",
                      pulls := [⟨1, "h"⟩] }

def wEvent : ProwJobEvent := { name := "t", refs := some wRefs }

def wCfgMulti : Config :=
  { getPresubmitsStatic := fun _ => [wJobT, wJobT],
    getPostsubmitsStatic := fun _ => [wJobT, wJobT] }

def wCacheOk : InRepoConfigCache :=
  { getPresubmits := fun _ _ _ => .ok [wJobT],
    getPostsubmits := fun _ _ => .ok [wJobT] }

def wCacheErr : InRepoConfigCache :=
  { getPresubmits := fun _ _ _ => .error "boom",
    getPostsubmits := fun _ _ => .error "boom" }

def wJhCluster : JobHandler := fun _ _ _ => .ok ({ cluster := "c" }, none)

def wJhLabels : JobHandler := fun _ _ _ => .ok ({ cluster := "c" }, some 0)

def wJhPod : JobHandler := fun _ _ _ =>
  .ok ({ cluster := "c",
         podSpec := some { containers := [{ env := [⟨"E0", "v0"⟩] }] } }, none)

theorem presubmit_validation_witness :
    presubmitGetProwJobSpec {} none { name := "j" } =
      .error "Refs must be supplied" ∧
    presubmitGetProwJobSpec {} none
        { name := "j", refs := some ⟨"", "r", "m", "s", [⟨1, "h"⟩]⟩ } =
      .error "org must be supplied" ∧
    presubmitGetProwJobSpec {} none
        { name := "j", refs := some ⟨"o", "", "m", "s", [⟨1, "h"⟩]⟩ } =
      .error "repo must be supplied" ∧
    presubmitGetProwJobSpec {} none
        { name := "j", refs := some ⟨"o", "r", "m", "s", []⟩ } =
      .error "at least 1 Pulls is required" ∧
    presubmitGetProwJobSpec {} none
        { name := "j", refs := some ⟨"o", "r", "m", "", [⟨1, "h"⟩]⟩ } =
      .error "baseSHA must be supplied" ∧
    presubmitGetProwJobSpec {} none
        { name := "j", refs := some ⟨"o", "r", "", "s", [⟨1, "h"⟩]⟩ } =
      .error "baseRef must be supplied" ∧
    (handleProwJob { cfg := {} } [] presubmitGetProwJobSpec Json.null []).created
      = [] := by
  refine ⟨?_, ?_, ?_, ?_, ?_, ?_, ?_⟩
  · exact (presubmit_validation {} none _).1 rfl
  · exact ((presubmit_validation {} none _).2.1 _ rfl).1 rfl
  · exact ((presubmit_validation {} none _).2.1 _ rfl).2.1 (by decide) rfl
  · exact ((presubmit_validation {} none _).2.1 _ rfl).2.2.1
      (by decide) (by decide) rfl
  · exact ((presubmit_validation {} none _).2.1 _ rfl).2.2.2.1
      (by decide) (by decide) (by decide) rfl
  · exact ((presubmit_validation {} none _).2.1 _ rfl).2.2.2.2
      (by decide) (by decide) (by decide) (by decide) rfl
  · exact ((presubmit_validation {} none { name := "" }).2.2
      { cfg := {} } [] Json.null [] "Refs must be supplied" rfl rfl).1

theorem resolution_match_cardinality_witness :
    presubmitGetProwJobSpec wCfgMulti none wEvent = .error (multiMatchErr "t") ∧
    presubmitGetProwJobSpec {} none wEvent =
      .error (notFoundErr "presubmit" "t") ∧
    postsubmitGetProwJobSpec wCfgMulti none wEvent = .error (multiMatchErr "t") ∧
    postsubmitGetProwJobSpec {} none wEvent =
      .error (notFoundErr "postsubmit" "t") ∧
    (handleProwJob { cfg := {} } [] (fun _ _ _ => .error "boom")
        (encodeProwJobEvent wEvent) []).created = [] := by
  have hm := resolution_match_cardinality wCfgMulti none wEvent wRefs rfl
    (by decide) (by decide) (by decide) (by decide) (by decide)
  have h0 := resolution_match_cardinality {} none wEvent wRefs rfl
    (by decide) (by decide) (by decide) (by decide) (by decide)
  refine ⟨hm.1 (by decide), h0.2.1 rfl, hm.2.2.1 (by decide),
    h0.2.2.2.1 rfl, ?_⟩
  exact h0.2.2.2.2 { cfg := {} } [] (fun _ _ _ => .error "boom")
    (encodeProwJobEvent wEvent) [] "boom" rfl rfl

theorem cluster_allowlist_enforcement_witness :
    (handleProwJob { cfg := {} } [] wJhCluster Json.null ["d"]).result =
      some (clusterNotAllowedErr "c") ∧
    ∃ pj, (handleProwJob { cfg := {} } [] wJhCluster Json.null
      ["*"]).created = [pj] := by
  constructor
  · exact ((cluster_allowlist_enforcement { cfg := {} } [] wJhCluster Json.null
      ["d"] { name := "" } { cluster := "c" } none rfl rfl).1 (by decide)).1
  · exact (cluster_allowlist_enforcement { cfg := {} } [] wJhCluster Json.null
      ["*"] { name := "" } { cluster := "c" } none rfl rfl).2 (by decide)

theorem submitted_job_labels_witness :
    ∃ pj, (handleProwJob { cfg := {} } [[("a", "1")]] wJhLabels
        (encodeProwJobEvent { name := "x", labels := [("a", "2"), ("b", "3")] })
        ["*"]).created = [pj] ∧
      lookupKey pj.labels "a" = some "2" := by
  obtain ⟨pj, hcr, -, hmem⟩ := submitted_job_labels { cfg := {} } [[("a", "1")]]
    wJhLabels (encodeProwJobEvent { name := "x", labels := [("a", "2"), ("b", "3")] })
    ["*"] { name := "x", labels := [("a", "2"), ("b", "3")] }
    { cluster := "c" } (some 0) rfl rfl (by decide) (by decide)
  exact ⟨pj, hcr, hmem "a" "2" (by decide)⟩

theorem presubmit_dynamic_catalog_witness :
    presubmitGetProwJobSpec {} (some wCacheOk) wEvent =
      presubmitGetProwJobSpec
        { ({} : Config) with getPresubmitsStatic := fun _ => [wJobT] }
        none wEvent ∧
    presubmitGetProwJobSpec {} (some wCacheErr) wEvent =
      presubmitGetProwJobSpec {} none wEvent := by
  constructor
  · exact (presubmit_dynamic_catalog {} wCacheOk wEvent wRefs rfl).1 [wJobT] rfl
  · exact (presubmit_dynamic_catalog {} wCacheErr wEvent wRefs rfl).2 "boom" rfl

theorem env_entries_appended_witness :
    ∃ pj, (handleProwJob { cfg := {} } [] wJhPod
        (encodeProwJobEvent { name := "x", envs := [("K", "V")] })
        ["*"]).created = [pj] ∧
      pj.spec.podSpec =
        some { containers := [{ env := [⟨"E0", "v0"⟩, ⟨"K", "V"⟩] }] } := by
  obtain ⟨pj, hcr, -, hsome, -⟩ := env_entries_appended { cfg := {} } [] wJhPod
    (encodeProwJobEvent { name := "x", envs := [("K", "V")] }) ["*"]
    { name := "x", envs := [("K", "V")] }
    { cluster := "c",
      podSpec := some { containers := [{ env := [⟨"E0", "v0"⟩] }] } }
    none rfl rfl (by decide)
  refine ⟨pj, hcr, ?_⟩
  rw [hsome _ rfl]
  rfl

theorem event_class_attribute_handling_witness :
    (handleMessage { cfg := {} } []
        { data := Json.null, attributes := [(prowEventType, "")] }
        "sub" []).result = some (unsupportedEventTypeErr "") ∧
    (handleMessage { cfg := {} } []
        { data := Json.null, attributes := [(prowEventType, "")] }
        "sub" []).prowJobEffects = none ∧
    (handleMessage { cfg := {} } []
        { data := Json.null, attributes := [] }
        "sub" []).prowJobEffects = none := by
  have h1 := (event_class_attribute_handling { cfg := {} } []
    [(prowEventType, "")] Json.null "" "sub" []).1 ""
    (by decide) (by decide) (by decide) (by decide)
  have h2 := (event_class_attribute_handling { cfg := {} } []
    [] Json.null "" "sub" []).2 rfl
  exact ⟨h1.1, h1.2, h2.2⟩

end PubSub
